import Mathlib

/-!
Verification of the Torarr sidecar controller core: a shallow embedding of
the control-port client (`internal/tor/control.go`), the egress verifier
(`internal/health/external.go`), the readiness evaluator and HTTP handlers
(`internal/health/handlers.go`) and the webhook notifier
(`internal/notify/webhook.go`), together with theorems settling the spec's
claims about them.

Modelling conventions: machine integers are `Int` with explicit range checks
where the Go code checks them (strconv.ParseInt bit sizes); fallible
operations return `Option`/`Except`; the network is an explicit oracle or a
scripted connection; timestamps and the metrics sink are not modelled (no
claim mentions them).
-/

namespace Torarr

/-! ### Go string primitives (strings package), modelled over `String.data` -/

/-- Whitespace per Go `unicode.IsSpace`, restricted to the ASCII range the
line protocol can carry. -/
def goIsSpace (c : Char) : Bool :=
  c == ' ' || c == '\t' || c == '\n' || c == '\x0b' || c == '\x0c' || c == '\r'

/-- `List.dropWhile goIsSpace`, the front half of `strings.TrimSpace`. -/
def dropSp (cs : List Char) : List Char := cs.dropWhile goIsSpace

/-- Characters of `strings.TrimSpace`: drop spaces at the front, then at the back. -/
def trimChars (cs : List Char) : List Char := ((dropSp cs).reverse.dropWhile goIsSpace).reverse

/-- Go `strings.TrimSpace`. -/
def goTrim (s : String) : String := ⟨trimChars s.data⟩

/-- Boolean list-level "is a prefix of". -/
def isPfxOf : List Char → List Char → Bool
  | [], _ => true
  | _ :: _, [] => false
  | p :: ps, c :: cs => p == c && isPfxOf ps cs

/-- Go `strings.HasPrefix s p`. -/
def goHasPfx (s p : String) : Bool := isPfxOf p.data s.data

/-- Go `strings.TrimPrefix s p`. -/
def goTrimPfx (s p : String) : String :=
  if goHasPfx s p then ⟨s.data.drop p.data.length⟩ else s

/-- Go `strings.TrimSuffix s p`. -/
def goTrimSfx (s p : String) : String :=
  if isPfxOf p.data.reverse s.data.reverse then ⟨(s.data.reverse.drop p.data.length).reverse⟩ else s

/-- Split at the first `'='`, returning the parts around it. -/
def splitEq : List Char → Option (List Char × List Char)
  | [] => none
  | c :: cs =>
    if c == '=' then some ([], cs)
    else
      match splitEq cs with
      | some (a, b) => some (c :: a, b)
      | none => none

/-- Go `strings.SplitN s "=" 2`. -/
def goSplitN2Eq (s : String) : List String :=
  match splitEq s.data with
  | none => [s]
  | some (a, b) => [⟨a⟩, ⟨b⟩]

/-- Accumulator worker for `goFields`. -/
def fieldsAux : List Char → List Char → List (List Char)
  | [], acc => if acc.isEmpty then [] else [acc.reverse]
  | c :: cs, acc =>
    if goIsSpace c then
      if acc.isEmpty then fieldsAux cs [] else acc.reverse :: fieldsAux cs []
    else fieldsAux cs (c :: acc)

/-- Go `strings.Fields`: split on whitespace runs, no empty fields. -/
def goFields (s : String) : List String := (fieldsAux s.data []).map (⟨·⟩)

/-- Boolean substring containment worker. -/
def containsSub (sub : List Char) : List Char → Bool
  | [] => sub.isEmpty
  | c :: cs => isPfxOf sub (c :: cs) || containsSub sub cs

/-- Go `strings.Contains s sub`. -/
def goContains (s sub : String) : Bool := containsSub sub.data s.data

/-- Go `strings.ToLower` (ASCII-adequate). -/
def goToLower (s : String) : String := ⟨s.data.map Char.toLower⟩

/-- Numeric value of a nonempty all-digit character list. -/
def digitsVal : List Char → Option Nat
  | [] => none
  | cs =>
    if cs.all Char.isDigit then
      some (cs.foldl (fun acc c => acc * 10 + (c.toNat - 48)) 0)
    else none

/-- Go `strconv.ParseInt s 10 64`: optional sign, nonempty digits, 64-bit
signed range; anything else is an error (`none`). -/
def goParseInt64 (s : String) : Option Int :=
  let (neg, ds) :=
    match s.data with
    | '+' :: r => (false, r)
    | '-' :: r => (true, r)
    | r => (false, r)
  match digitsVal ds with
  | none => none
  | some m =>
    if neg then
      if m ≤ 2 ^ 63 then some (-(m : Int)) else none
    else
      if m ≤ 2 ^ 63 - 1 then some (m : Int) else none

/-- Go `strconv.Atoi` (64-bit platform): `ParseInt s 10 64`. -/
def goAtoi (s : String) : Option Int := goParseInt64 s

/-! ### Control-port client (`internal/tor/control.go`) -/

/-- `tor.TrafficStats`. -/
structure TrafficStats where
  bytesRead : Int := 0
  bytesWritten : Int := 0
deriving DecidableEq, Repr

/-- `tor.Status`. -/
structure Status where
  version : String := ""
  bootstrapPhase : Int := 0
  circuitEstablished : Bool := false
  numCircuits : Int := 0
  traffic : TrafficStats := {}
deriving DecidableEq, Repr

/-- Lookup in the reply map (Go `info[key]` presence form). -/
def lookupInfo : List (String × String) → String → Option String
  | [], _ => none
  | (k, v) :: t, key => if k = key then some v else lookupInfo t key

/-- Go map insertion `result[k] = v`: replace an existing binding or append. -/
def insertInfo : List (String × String) → String → String → List (String × String)
  | [], k, v => [(k, v)]
  | (k', v') :: t, k, v => if k' = k then (k, v) :: t else (k', v') :: insertInfo t k v

/-- Parsing mode of the `GetInfo` reply loop: the inner multi-line loop of the
Go code is the `multi` mode carrying the key and the value built so far
(the `strings.Builder`). -/
inductive PMode where
  | normal
  | multi (key : String) (acc : String)

/-- The `GetInfo` read loop over a script of reads (`none` = read I/O error;
an exhausted script also reads as an error). Returns the reply map and the
unconsumed reads, or `none` on a read error. Mirrors control.go lines
119–162. -/
def getInfoLoop : List (Option String) → PMode → List (String × String) →
    Option (List (String × String) × List (Option String))
  | [], _, _ => none
  | none :: _, _, _ => none
  | some l :: rest, .normal, res =>
    let line := goTrim l
    if goHasPfx line "250 OK" then some (res, rest)
    else if goHasPfx line "250-" then
      let body := goTrimPfx line "250-"
      match goSplitN2Eq body with
      | [k, v] => getInfoLoop rest .normal (insertInfo res k v)
      | _ => getInfoLoop rest .normal res
    else if goHasPfx line "250+" then
      let key := goTrimSfx (goTrimPfx line "250+") "="
      getInfoLoop rest (.multi key "") res
    else getInfoLoop rest .normal res
  | some l :: rest, .multi key acc, res =>
    let dataLine := goTrim l
    if dataLine = "." then getInfoLoop rest .normal (insertInfo res key (goTrim acc))
    else getInfoLoop rest (.multi key (acc ++ dataLine ++ "\n")) res

/-- A scripted control-port connection: whether the command write succeeds,
the scripted reads, and whether `net.Conn.Close` succeeds. -/
structure Conn where
  writeOk : Bool
  reads : List (Option String)
  closeOk : Bool
deriving DecidableEq, Repr

/-- `tor.Client` mutable state relevant to the claims: the connection handle. -/
structure ClientState where
  conn : Option Conn
deriving DecidableEq, Repr

/-- `Client.GetInfo`: returns the reply map or an error, together with the
client state afterwards. Mirrors control.go lines 99–165, including the
early returns that skip `c.conn = nil` when `Close` itself errors. -/
def GetInfoM (st : ClientState) : Except String (List (String × String)) × ClientState :=
  match st.conn with
  | none => (.error "not connected", st)
  | some c =>
    if !c.writeOk then
      if !c.closeOk then
        (.error "failed to send getinfo command (close error)", st)
      else
        (.error "failed to send getinfo command", ⟨none⟩)
    else
      match getInfoLoop c.reads .normal [] with
      | none =>
        if !c.closeOk then
          (.error "failed to read getinfo response (close error)", st)
        else
          (.error "failed to read getinfo response", ⟨none⟩)
      | some (result, _) => (.ok result, st)

/-- `Client.Signal`: sends a signal and reads one reply line. Mirrors
control.go lines 227–259. -/
def SignalM (st : ClientState) : Except String Unit × ClientState :=
  match st.conn with
  | none => (.error "not connected", st)
  | some c =>
    if !c.writeOk then
      if !c.closeOk then
        (.error "failed to send signal (close error)", st)
      else
        (.error "failed to send signal", ⟨none⟩)
    else
      match c.reads with
      | some line :: _ =>
        if goHasPfx line "250" then (.ok (), st)
        else (.error ("signal failed: " ++ goTrim line), st)
      | _ =>
        if !c.closeOk then
          (.error "failed to read signal response (close error)", st)
        else
          (.error "failed to read signal response", ⟨none⟩)

/-- Bootstrap progress extraction from the `status/bootstrap-phase` value:
scan the space-separated fields, and each `PROGRESS=`-prefixed field whose
suffix parses overwrites the progress (initially 0). Mirrors control.go
lines 187–198. -/
def progressFromPhase (phase : String) : Int :=
  (goFields phase).foldl
    (fun acc field =>
      if goHasPfx field "PROGRESS=" then
        match goAtoi (goTrimPfx field "PROGRESS=") with
        | some p => p
        | none => acc
      else acc)
    0

/-- Field extraction of `Client.GetStatus` from a successful reply map
(control.go lines 183–216): every parse failure defaults, never errors. -/
def getStatusFields (info : List (String × String)) : Status :=
  { version := (lookupInfo info "version").getD ""
    bootstrapPhase :=
      match lookupInfo info "status/bootstrap-phase" with
      | some phase => progressFromPhase phase
      | none => 0
    circuitEstablished :=
      match lookupInfo info "status/circuit-established" with
      | some v => v = "1"
      | none => false
    numCircuits := 0
    traffic :=
      { bytesRead :=
          match lookupInfo info "traffic/read" with
          | some v => (goParseInt64 v).getD 0
          | none => 0
        bytesWritten :=
          match lookupInfo info "traffic/written" with
          | some v => (goParseInt64 v).getD 0
          | none => 0 } }

/-- `Client.GetStatus` given the outcome of the connect + `GetInfo` query:
a query error propagates, a reply map always yields a snapshot. -/
def GetStatusGo (q : Except String (List (String × String))) : Except String Status :=
  match q with
  | .error e => .error e
  | .ok info => .ok (getStatusFields info)

/-- `Client.IsReady` (control.go lines 219–225): any status failure is
`false`; otherwise `BootstrapPhase >= 100`. -/
def IsReadyGo (q : Except String (List (String × String))) : Bool :=
  match GetStatusGo q with
  | .error _ => false
  | .ok s => decide (100 ≤ s.bootstrapPhase)


/-! ### The reply grammar of `GetInfo` (claim C4) -/

/-- Abstract reply items per the grammar: a single-line pair, or a
multi-line value. -/
inductive ReplyItem where
  | kv (k v : String)
  | ml (k : String) (lines : List String)
deriving DecidableEq, Repr

/-- Wire rendering of one reply item. -/
def renderItem : ReplyItem → List (Option String)
  | .kv k v => [some ("250-" ++ k ++ "=" ++ v)]
  | .ml k lines => some ("250+" ++ k ++ "=") :: (lines.map some ++ [some "."])

/-- Wire rendering of a whole reply: the items, the terminating "250 OK"
line, and then further bytes the parser must not consume. -/
def renderReply (items : List ReplyItem) (extra : List (Option String)) : List (Option String) :=
  (items.map renderItem).flatten ++ (some "250 OK" :: extra)

/-- Intervening lines of a multi-line value joined with newlines. -/
def joinNl : List String → String
  | [] => ""
  | [l] => l
  | l :: ls => l ++ "\n" ++ joinNl ls
/-- The key/value pair an item contributes to the reply map. -/
def itemPair : ReplyItem → String × String
  | .kv k v => (k, v)
  | .ml k lines => (k, joinNl lines)

/-- No trailing whitespace. -/
def noTrailSp (s : String) : Bool := dropSp s.data.reverse == s.data.reverse

/-- Well-formedness of an item for the grammar claim: a pair's key holds no
`'='` and its value no trailing whitespace; a multi-line value's lines carry
no surrounding whitespace and are neither empty nor the terminator ".". -/
def wfItemB : ReplyItem → Bool
  | .kv k v => !(k.data.contains '=') && noTrailSp v
  | .ml _ lines => lines.all (fun l => goTrim l == l && l != "" && l != ".")

/-- The value accumulation of the multi-line loop: each data line is
appended followed by a newline. -/
def buildVal (acc : String) : List String → String
  | [] => acc
  | l :: ls => buildVal (acc ++ l ++ "\n") ls

/-- Characters of the accumulated multi-line value. -/
def flatNl : List String → List Char
  | [] => []
  | l :: ls => l.data ++ '\n' :: flatNl ls

/-! ### JSON decoding model (encoding/json on the flat objects the
external checker decodes) -/

/-- Left brace character (written by code point to keep it out of literals). -/
def lbrace : Char := Char.ofNat 123

/-- Right brace character. -/
def rbrace : Char := Char.ofNat 125

/-- A JSON scalar value. -/
inductive JVal where
  | jstr (s : String)
  | jbool (b : Bool)
  | jnum (n : Int)
  | jnull
deriving DecidableEq, Repr

/-- JSON insignificant whitespace. -/
def jIsWs (c : Char) : Bool := c == ' ' || c == '\t' || c == '\n' || c == '\r'

def jSkipWs (cs : List Char) : List Char := cs.dropWhile jIsWs

/-- Parse a string literal body after its opening quote (escape-free
subset). -/
def jParseStr : List Char → Option (String × List Char)
  | [] => none
  | c :: cs =>
    if c == '"' then some ("", cs)
    else if c == '\\' then none
    else
      match jParseStr cs with
      | some (s, rest) => some (⟨c :: s.data⟩, rest)
      | none => none

/-- Parse one scalar value. -/
def jParseVal (cs : List Char) : Option (JVal × List Char) :=
  match jSkipWs cs with
  | [] => none
  | c :: rest =>
    if c == '"' then
      match jParseStr rest with
      | some (s, r) => some (.jstr s, r)
      | none => none
    else if isPfxOf "true".data (c :: rest) then some (.jbool true, rest.drop 3)
    else if isPfxOf "false".data (c :: rest) then some (.jbool false, rest.drop 4)
    else if isPfxOf "null".data (c :: rest) then some (.jnull, rest.drop 3)
    else
      let (neg, digitsPart) := if c == '-' then (true, rest) else (false, c :: rest)
      let ds := digitsPart.takeWhile Char.isDigit
      let rem := digitsPart.drop ds.length
      if ds.isEmpty then none
      else if rem.head? == some '.' || rem.head? == some 'e' || rem.head? == some 'E' then none
      else
        match digitsVal ds with
        | some m => some (.jnum (if neg then -(m : Int) else (m : Int)), rem)
        | none => none

/-- Parse the members of an object, after its opening brace. Fuel-based; one
member consumes at least one character, so the input length suffices. -/
def jParseMembers : Nat → List Char → Option (List (String × JVal) × List Char)
  | 0, _ => none
  | fuel + 1, cs =>
    match jSkipWs cs with
    | [] => none
    | c1 :: r1 =>
      if c1 == '"' then
        match jParseStr r1 with
        | none => none
        | some (key, r2) =>
          match jSkipWs r2 with
          | ':' :: r3 =>
            match jParseVal r3 with
            | none => none
            | some (v, r4) =>
              match jSkipWs r4 with
              | [] => none
              | c5 :: r5 =>
                if c5 == ',' then
                  match jParseMembers fuel r5 with
                  | some (kvs, r6) => some ((key, v) :: kvs, r6)
                  | none => none
                else if c5 == rbrace then some ([(key, v)], r5)
                else none
          | _ => none
      else none

/-- Parse a whole flat JSON object. -/
def jsonParseObj (s : String) : Option (List (String × JVal)) :=
  match jSkipWs s.data with
  | [] => none
  | c :: cs =>
    if c == lbrace then
      match jSkipWs cs with
      | [] => none
      | d :: rest =>
        if d == rbrace then (if (jSkipWs rest).isEmpty then some [] else none)
        else
          match jParseMembers (s.data.length + 1) cs with
          | some (kvs, rest2) => if (jSkipWs rest2).isEmpty then some kvs else none
          | none => none
    else none

/-- Go `strings.EqualFold` as encoding/json key matching uses it
(ASCII-adequate). -/
def eqFold (a b : String) : Bool := goToLower a == goToLower b

/-- `json.Unmarshal` of a body into `struct { IsTor bool; IP string }`:
members are scanned in order, a member whose key matches a field
(case-insensitively) must carry that field's type, unmatched members are
ignored, absent fields keep their zero values. -/
def unmarshalTorCheck (body : String) : Option (Bool × String) :=
  match jsonParseObj body with
  | none => none
  | some kvs =>
    kvs.foldlM
      (fun acc kv =>
        if eqFold kv.1 "IsTor" then
          match kv.2 with
          | .jbool b => some (b, acc.2)
          | _ => none
        else if eqFold kv.1 "IP" then
          match kv.2 with
          | .jstr s => some (acc.1, s)
          | _ => none
        else some acc)
      (false, "")

/-- `json.Unmarshal` into `struct { IP string; Org string }` (fields tagged
"ip" and "org"), returning (ip, org). -/
def unmarshalIpInfo (body : String) : Option (String × String) :=
  match jsonParseObj body with
  | none => none
  | some kvs =>
    kvs.foldlM
      (fun acc kv =>
        if eqFold kv.1 "ip" then
          match kv.2 with
          | .jstr s => some (s, acc.2)
          | _ => none
        else if eqFold kv.1 "org" then
          match kv.2 with
          | .jstr s => some (acc.1, s)
          | _ => none
        else some acc)
      ("", "")

/-! ### Egress verifier (`internal/health/external.go`) -/

/-- `ExternalChecker.parseResponse` (external.go lines 154–184): dialect is
selected by a substring of the endpoint URL; a failed unmarshal falls
through; an endpoint matching no dialect yields (false, ""). -/
def parseResponse (endpoint body : String) : Bool × String :=
  match (if goContains endpoint "check.torproject.org" then unmarshalTorCheck body else none) with
  | some r => r
  | none =>
    if goContains endpoint "check.dan.me.uk" then
      (goContains (goToLower body) "yes", "")
    else
      match (if goContains endpoint "ipinfo.io" then unmarshalIpInfo body else none) with
      | some (ip, org) => (goContains (goToLower org) "tor", ip)
      | none => (false, "")

deriving instance DecidableEq for Except

/-- The HTTP-level outcome of one probe attempt: a transport/request error,
or a status code with the body read (which itself may fail). -/
inductive ProbeOutcome where
  | transportError (e : String)
  | response (code : Nat) (body : Except String String)
deriving DecidableEq, Repr

/-- `health.ExternalCheckResult` (timestamp omitted, not modelled). -/
structure ExternalCheckResult where
  success : Bool
  isTor : Bool
  ip : String
  endpoint : String
  error : String
deriving DecidableEq, Repr

/-- `ExternalChecker.checkEndpointOnce` (external.go lines 94–152): fails on
transport error, non-200 status, or body-read error; a read body is a
success whose verification flag comes from `parseResponse`. -/
def checkEndpointOnce (oracle : String → Nat → ProbeOutcome) (endpoint : String)
    (attempt : Nat) : ExternalCheckResult :=
  match oracle endpoint attempt with
  | .transportError e => ⟨false, false, "", endpoint, e⟩
  | .response code body =>
    if code ≠ 200 then ⟨false, false, "", endpoint, "HTTP " ++ toString code⟩
    else
      match body with
      | .error e => ⟨false, false, "", endpoint, e⟩
      | .ok b =>
        let p := parseResponse endpoint b
        ⟨true, p.1, p.2, endpoint, ""⟩

/-- The retry loop of `ExternalChecker.checkEndpoint` (external.go lines
69–92): remaining attempts, attempts made so far; returns the result and
the number of attempts made (backoff sleeps are not modelled). -/
def checkEndpointLoop (oracle : String → Nat → ProbeOutcome) (endpoint : String) :
    Nat → Nat → ExternalCheckResult × Nat
  | 0, attempts => (⟨false, false, "", endpoint, "failed after 2 retries"⟩, attempts)
  | n + 1, attempts =>
    let r := checkEndpointOnce oracle endpoint attempts
    if r.success then (r, attempts + 1)
    else checkEndpointLoop oracle endpoint n (attempts + 1)

/-- `maxRetries` of external.go. -/
def maxRetries : Nat := 2

/-- `ExternalChecker.checkEndpoint`: up to `maxRetries + 1` attempts. -/
def checkEndpointGo (oracle : String → Nat → ProbeOutcome) (endpoint : String) :
    ExternalCheckResult × Nat :=
  checkEndpointLoop oracle endpoint (maxRetries + 1) 0

/-- `ExternalChecker.performCheck` (external.go lines 40–67) instrumented
with the attempts made per endpoint tried: the first endpoint whose result
has `success` short-circuits; exhaustion yields the aggregate failure. -/
def performCheckGo (oracle : String → Nat → ProbeOutcome) :
    List String → ExternalCheckResult × List (String × Nat)
  | [] => (⟨false, false, "", "", "all endpoints failed"⟩, [])
  | e :: rest =>
    let rn := checkEndpointGo oracle e
    if rn.1.success then (rn.1, [(e, rn.2)])
    else
      let rc := performCheckGo oracle rest
      (rc.1, (e, rn.2) :: rc.2)

/-- `ExternalChecker.Check`. -/
def CheckGo (oracle : String → Nat → ProbeOutcome) (endpoints : List String) :
    ExternalCheckResult :=
  (performCheckGo oracle endpoints).1

/-! ### Notifier and readiness evaluator (`internal/notify/webhook.go`,
`internal/health/handlers.go`) -/

/-- `notify.Details` (JSON-optional fields as options/zero values). -/
structure Details where
  bootstrap : Option Int := none
  circuits : Int := 0
  healthy : Bool := false
  error : String := ""
deriving DecidableEq, Repr

/-- One notification emission handed to `sendWebhook`: event kind, message,
details. -/
structure Emit where
  event : String
  message : String
  details : Details
deriving DecidableEq, Repr

/-- `Handler.checkHealthStateChange` (handlers.go lines 333–362): returns
(state changed?, new stored class, emissions). The first call only stores
the baseline; a change emits exactly one health-changed event. -/
def checkHealthStateChangeGo (prev : Option Bool) (cur : Bool) :
    Bool × Option Bool × List Emit :=
  match prev with
  | none => (false, some cur, [])
  | some p =>
    if p ≠ cur then
      let msg := if cur then "Tor health status changed to healthy"
        else "Tor health status changed to unhealthy"
      (true, some cur, [⟨"health_changed", msg, { healthy := cur }⟩])
    else (false, some p, [])

/-- `Handler.Health` (handlers.go lines 66–136) given the stored class and
the status-query outcome: returns (HTTP status, new stored class,
emissions). -/
def healthGo (prev : Option Bool) (q : Except String Status) :
    Nat × Option Bool × List Emit :=
  match q with
  | .error e =>
    let c := checkHealthStateChangeGo prev false
    let evs := if !c.1 then
        c.2.2 ++ [⟨"bootstrap_failed", "Tor bootstrap failed", { error := e }⟩]
      else c.2.2
    (503, c.2.1, evs)
  | .ok status =>
    if status.bootstrapPhase < 100 then
      let c := checkHealthStateChangeGo prev false
      let evs := if !c.1 then
          c.2.2 ++ [⟨"bootstrap_failed", "Tor bootstrap incomplete",
            { bootstrap := some status.bootstrapPhase, circuits := status.numCircuits }⟩]
        else c.2.2
      (503, c.2.1, evs)
    else
      let c := checkHealthStateChangeGo prev true
      (200, c.2.1, c.2.2)

/-- `Handler.Renew` (handlers.go lines 197–229) given the signal and
follow-up status-fetch outcomes: returns (HTTP status, emissions). -/
def renewGo (method : String) (sig : Except String Unit) (st : Except String Status) :
    Nat × List Emit :=
  if method ≠ "POST" then (405, [])
  else
    match sig with
    | .error _ => (500, [])
    | .ok _ =>
      match st with
      | .error _ => (200, [])
      | .ok status =>
        (200, [⟨"circuit_renewed", "Tor circuit renewal requested",
          { circuits := status.numCircuits, healthy := status.circuitEstablished }⟩])

/-- `Handler.sendWebhook` gating (handlers.go lines 275–290): a delivery is
attempted only when a webhook is configured and the event is in the
configured allow-list. -/
def sendWebhookGo (webhookConfigured : Bool) (events : List String) (event : String) : Bool :=
  if !webhookConfigured then false
  else if !(events.contains event) then false
  else true

/-- `Webhook.Send` (webhook.go lines 71–106) over abstract payload
formatting, request construction and delivery outcomes: returns the result
and whether an HTTP request was issued. -/
def webhookSendGo (url : String) (fmtR : Except String String) (mkReq : Except String Unit)
    (doResp : Except String Nat) : Except String Unit × Bool :=
  if url = "" then (.ok (), false)
  else
    match fmtR with
    | .error e => (.error ("formatting payload: " ++ e), false)
    | .ok _ =>
      match mkReq with
      | .error e => (.error ("creating request: " ++ e), false)
      | .ok _ =>
        match doResp with
        | .error e => (.error ("sending request: " ++ e), true)
        | .ok code =>
          if code < 200 ∨ 300 ≤ code then
            (.error ("webhook returned status " ++ toString code), true)
          else (.ok (), true)


/-! ### Claims about the status reader and the reply grammar -/

/-! ### Claims about the status reader -/

/-- If no `PROGRESS=`-prefixed field of the list parses, the progress fold
keeps its accumulator. -/
theorem foldl_progress_const (l : List String) (acc : Int)
    (h : ∀ f ∈ l, goHasPfx f "PROGRESS=" = true → goAtoi (goTrimPfx f "PROGRESS=") = none) :
    l.foldl
      (fun acc field =>
        if goHasPfx field "PROGRESS=" then
          match goAtoi (goTrimPfx field "PROGRESS=") with
          | some p => p
          | none => acc
        else acc)
      acc = acc := by
  induction l generalizing acc with
  | nil => rfl
  | cons f t ih =>
    have hf := h f (List.mem_cons_self _ _)
    have ht : ∀ g ∈ t, goHasPfx g "PROGRESS=" = true → goAtoi (goTrimPfx g "PROGRESS=") = none :=
      fun g hg => h g (List.mem_cons_of_mem _ hg)
    simp only [List.foldl_cons]
    by_cases hp : goHasPfx f "PROGRESS=" = true
    · rw [show (if goHasPfx f "PROGRESS=" then
          (match goAtoi (goTrimPfx f "PROGRESS=") with
           | some p => p
           | none => acc)
          else acc) = acc by rw [hp, hf hp]; simp]
      exact ih acc ht
    · rw [show (if goHasPfx f "PROGRESS=" then
          (match goAtoi (goTrimPfx f "PROGRESS=") with
           | some p => p
           | none => acc)
          else acc) = acc by simp [hp]]
      exact ih acc ht

/-- C3: for every reply map, `IsReady` is true exactly when the parsed
bootstrap value is at least 100 (in particular 99 is not ready, 100 and 101
are), and every failing status query yields `false` rather than an error. -/
theorem isReady_iff_bootstrap_at_least_100 :
    (∀ info, IsReadyGo (.ok info) = decide (100 ≤ (getStatusFields info).bootstrapPhase))
    ∧ (∀ e, IsReadyGo (.error e) = false)
    ∧ IsReadyGo (.ok [("status/bootstrap-phase", "NOTICE BOOTSTRAP PROGRESS=99 TAG=x")]) = false
    ∧ IsReadyGo (.ok [("status/bootstrap-phase", "NOTICE BOOTSTRAP PROGRESS=100 TAG=x")]) = true
    ∧ IsReadyGo (.ok [("status/bootstrap-phase", "NOTICE BOOTSTRAP PROGRESS=101 TAG=x")]) = true := by
  refine ⟨fun info => rfl, fun e => rfl, by decide, by decide, by decide⟩

/-- C5: field extraction of `GetStatus` never fails: a bootstrap-phase value
with no parsable `PROGRESS=` token yields phase 0 (likewise an absent key);
circuit-established is true iff the raw value is the literal "1"; absent or
unparsable traffic counters yield 0; and a successful query always yields a
snapshot, never an error. -/
theorem getStatus_field_defaults :
    (∀ info phase, lookupInfo info "status/bootstrap-phase" = some phase →
      (∀ f ∈ goFields phase, goHasPfx f "PROGRESS=" = true →
        goAtoi (goTrimPfx f "PROGRESS=") = none) →
      (getStatusFields info).bootstrapPhase = 0)
    ∧ (∀ info, lookupInfo info "status/bootstrap-phase" = none →
        (getStatusFields info).bootstrapPhase = 0)
    ∧ (∀ info, (getStatusFields info).circuitEstablished = true ↔
        lookupInfo info "status/circuit-established" = some "1")
    ∧ (∀ info v, lookupInfo info "traffic/read" = some v → goParseInt64 v = none →
        (getStatusFields info).traffic.bytesRead = 0)
    ∧ (∀ info, lookupInfo info "traffic/read" = none →
        (getStatusFields info).traffic.bytesRead = 0)
    ∧ (∀ info v, lookupInfo info "traffic/written" = some v → goParseInt64 v = none →
        (getStatusFields info).traffic.bytesWritten = 0)
    ∧ (∀ info, lookupInfo info "traffic/written" = none →
        (getStatusFields info).traffic.bytesWritten = 0)
    ∧ (∀ info, GetStatusGo (.ok info) = .ok (getStatusFields info)) := by
  refine ⟨?_, ?_, ?_, ?_, ?_, ?_, ?_, fun info => rfl⟩
  · intro info phase hl hfields
    simp only [getStatusFields, hl, progressFromPhase]
    exact foldl_progress_const _ _ hfields
  · intro info hl
    simp [getStatusFields, hl]
  · intro info
    simp only [getStatusFields]
    cases h : lookupInfo info "status/circuit-established" with
    | none => simp [h]
    | some v => simp [h]
  · intro info v hl hp
    simp [getStatusFields, hl, hp]
  · intro info hl
    simp [getStatusFields, hl]
  · intro info v hl hp
    simp [getStatusFields, hl, hp]
  · intro info hl
    simp [getStatusFields, hl]

/-- C5 witness: concrete malformed fields all default. -/
theorem getStatus_field_defaults_witness :
    (getStatusFields [("status/bootstrap-phase", "NOTICE PROGRESS=abc"),
      ("traffic/read", "12x3")]).bootstrapPhase = 0
    ∧ (getStatusFields [("status/bootstrap-phase", "NOTICE PROGRESS=abc"),
      ("traffic/read", "12x3")]).traffic.bytesRead = 0
    ∧ (getStatusFields [("status/bootstrap-phase", "NOTICE PROGRESS=abc"),
      ("traffic/read", "12x3")]).traffic.bytesWritten = 0 :=
  ⟨getStatus_field_defaults.1 _ "NOTICE PROGRESS=abc" (by decide) (by decide),
   getStatus_field_defaults.2.2.2.1 _ "12x3" (by decide) (by decide),
   getStatus_field_defaults.2.2.2.2.2.2.1 _ (by decide)⟩


theorem joinNl_cons2 (l l' : String) (ls : List String) :
    joinNl (l :: l' :: ls) = l ++ "\n" ++ joinNl (l' :: ls) := rfl


theorem buildVal_data (acc : String) (ls : List String) :
    (buildVal acc ls).data = acc.data ++ flatNl ls := by
  induction ls generalizing acc with
  | nil => simp [buildVal, flatNl]
  | cons l t ih => simp [buildVal, flatNl, ih]

theorem head_not_sp {c : Char} {t : List Char} (h : dropSp (c :: t) = c :: t) :
    goIsSpace c = false := by
  by_contra hc
  rw [Bool.not_eq_false] at hc
  rw [dropSp, List.dropWhile_cons, if_pos hc] at h
  have hle := (List.dropWhile_suffix (l := t) goIsSpace).length_le
  rw [h] at hle
  simp at hle

theorem dropSp_cons_of_not {c : Char} (h : goIsSpace c = false) (t : List Char) :
    dropSp (c :: t) = c :: t := by
  simp [dropSp, List.dropWhile_cons, h]

theorem dropSp_append_fix {A B : List Char} (hA : dropSp A = A) (hB : dropSp B = B) :
    dropSp (A ++ B) = A ++ B := by
  cases A with
  | nil => simpa using hB
  | cons c t => simpa using dropSp_cons_of_not (head_not_sp hA) (t ++ B)

theorem trimChars_fix {cs : List Char} (h1 : dropSp cs = cs) (h2 : dropSp cs.reverse = cs.reverse) :
    trimChars cs = cs := by
  rw [trimChars, h1]
  rw [show cs.reverse.dropWhile goIsSpace = dropSp cs.reverse from rfl, h2, List.reverse_reverse]

theorem fixes_of_trimChars_fix {cs : List Char} (h : trimChars cs = cs) :
    dropSp cs = cs ∧ dropSp cs.reverse = cs.reverse := by
  have hA : dropSp cs <:+ cs := List.dropWhile_suffix goIsSpace
  have hB : (dropSp cs).reverse.dropWhile goIsSpace <:+ (dropSp cs).reverse :=
    List.dropWhile_suffix goIsSpace
  have hlen : cs.length = ((dropSp cs).reverse.dropWhile goIsSpace).length := by
    conv_lhs => rw [← h, trimChars, List.length_reverse]
  have hA_len : (dropSp cs).length = cs.length := by
    have h1 := hA.length_le
    have h2 := hB.length_le
    rw [List.length_reverse] at h2
    omega
  have hA_eq : dropSp cs = cs := hA.eq_of_length hA_len
  refine ⟨hA_eq, ?_⟩
  have : ((dropSp cs).reverse.dropWhile goIsSpace).reverse = cs := by
    rw [← trimChars]; exact h
  rw [hA_eq] at this
  have := congrArg List.reverse this
  rw [List.reverse_reverse] at this
  rw [show cs.reverse.dropWhile goIsSpace = dropSp cs.reverse from rfl] at this
  exact this

theorem goTrim_fix_iff (s : String) : goTrim s = s ↔ trimChars s.data = s.data := by
  constructor
  · intro h
    have := congrArg String.data h
    exact this
  · intro h
    show (⟨trimChars s.data⟩ : String) = s
    rw [h]

theorem splitEq_append (K V : List Char) (hK : K.contains '=' = false) :
    splitEq (K ++ '=' :: V) = some (K, V) := by
  induction K with
  | nil => simp [splitEq]
  | cons c t ih =>
    rw [List.contains_cons] at hK
    have h1 := Bool.or_eq_false_iff.mp hK
    have hc' : (c == '=') = false := by
      have h2 := h1.1
      simp only [beq_eq_false_iff_ne, ne_eq] at h2 ⊢
      exact fun hcc => h2 hcc.symm
    simp [splitEq, hc', ih h1.2]

theorem kv_line_data (k v : String) :
    ("250-" ++ k ++ "=" ++ v).data = '2' :: '5' :: '0' :: '-' :: (k.data ++ '=' :: v.data) := by
  simp [String.data_append]

theorem ml_key_line_data (k : String) :
    ("250+" ++ k ++ "=").data = '2' :: '5' :: '0' :: '+' :: (k.data ++ ['=']) := by
  simp [String.data_append]

theorem goTrim_kv_line (k v : String) (hv : noTrailSp v = true) :
    goTrim ("250-" ++ k ++ "=" ++ v) = "250-" ++ k ++ "=" ++ v := by
  rw [goTrim_fix_iff, kv_line_data]
  refine trimChars_fix (dropSp_cons_of_not (by decide) _) ?_
  simp only [List.reverse_cons, List.reverse_append, List.append_assoc, List.cons_append,
    List.nil_append]
  rw [show (v.data.reverse ++ ('=' :: (k.data.reverse ++ ['-', '0', '5', '2'])) : List Char)
      = v.data.reverse ++ ('=' :: (k.data.reverse ++ ['-', '0', '5', '2'])) from rfl]
  refine dropSp_append_fix ?_ (dropSp_cons_of_not (by decide) _)
  simpa [noTrailSp] using hv

theorem goTrim_ml_key_line (k : String) :
    goTrim ("250+" ++ k ++ "=") = "250+" ++ k ++ "=" := by
  rw [goTrim_fix_iff, ml_key_line_data]
  refine trimChars_fix (dropSp_cons_of_not (by decide) _) ?_
  simp only [List.reverse_cons, List.reverse_append, List.append_assoc, List.cons_append,
    List.nil_append]
  exact dropSp_cons_of_not (by decide) _

/-- Step of the reply loop on a single-line pair. -/
theorem getInfoLoop_kv (k v : String) (rest : List (Option String)) (res : List (String × String))
    (hk : k.data.contains '=' = false) (hv : noTrailSp v = true) :
    getInfoLoop (some ("250-" ++ k ++ "=" ++ v) :: rest) .normal res
      = getInfoLoop rest .normal (insertInfo res k v) := by
  have hline := goTrim_kv_line k v hv
  have hOK : goHasPfx ("250-" ++ k ++ "=" ++ v) "250 OK" = false := by
    rw [goHasPfx, kv_line_data]; rfl
  have hdash : goHasPfx ("250-" ++ k ++ "=" ++ v) "250-" = true := by
    rw [goHasPfx, kv_line_data]; rfl
  have hdrop : goTrimPfx ("250-" ++ k ++ "=" ++ v) "250-" = ⟨k.data ++ '=' :: v.data⟩ := by
    rw [goTrimPfx, if_pos hdash, kv_line_data]
    rfl
  have hsplit : goSplitN2Eq ⟨k.data ++ '=' :: v.data⟩ = [k, v] := by
    rw [goSplitN2Eq]
    show (match splitEq (k.data ++ '=' :: v.data) with
      | none => [(⟨k.data ++ '=' :: v.data⟩ : String)]
      | some (a, b) => [⟨a⟩, ⟨b⟩]) = [k, v]
    rw [splitEq_append _ _ hk]
  simp only [getInfoLoop, hline, hOK, hdash, hdrop, hsplit, Bool.false_eq_true, if_false, if_true]

/-- Step of the reply loop on a multi-line opener. -/
theorem getInfoLoop_mlKey (k : String) (rest : List (Option String)) (res : List (String × String)) :
    getInfoLoop (some ("250+" ++ k ++ "=") :: rest) .normal res
      = getInfoLoop rest (.multi k "") res := by
  have hline := goTrim_ml_key_line k
  have hOK : goHasPfx ("250+" ++ k ++ "=") "250 OK" = false := by
    rw [goHasPfx, ml_key_line_data]; rfl
  have hdash : goHasPfx ("250+" ++ k ++ "=") "250-" = false := by
    rw [goHasPfx, ml_key_line_data]; rfl
  have hplus : goHasPfx ("250+" ++ k ++ "=") "250+" = true := by
    rw [goHasPfx, ml_key_line_data]; rfl
  have hdrop : goTrimPfx ("250+" ++ k ++ "=") "250+" = ⟨k.data ++ ['=']⟩ := by
    rw [goTrimPfx, if_pos hplus, ml_key_line_data]
    rfl
  have hkey : goTrimSfx (⟨k.data ++ ['=']⟩ : String) "=" = k := by
    rw [goTrimSfx]
    simp only [List.reverse_append]
    rw [show ((['='] : List Char).reverse ++ k.data.reverse) = '=' :: k.data.reverse by rfl]
    rw [show isPfxOf ("=".data.reverse) ('=' :: k.data.reverse) = true from rfl]
    simp
  simp only [getInfoLoop, hline, hOK, hdash, hplus, hdrop, hkey, Bool.false_eq_true, if_false,
    if_true]

/-- The multi-line inner loop consumes the data lines and the lone ".",
accumulating each line followed by a newline. -/
theorem getInfoLoop_mlData (lines : List String) (k acc : String) (rest : List (Option String))
    (res : List (String × String))
    (h : ∀ l ∈ lines, goTrim l = l ∧ l ≠ "" ∧ l ≠ ".") :
    getInfoLoop (lines.map some ++ (some "." :: rest)) (.multi k acc) res
      = getInfoLoop rest .normal (insertInfo res k (goTrim (buildVal acc lines))) := by
  induction lines generalizing acc with
  | nil =>
    simp only [List.map_nil, List.nil_append, buildVal]
    rw [show getInfoLoop (some "." :: rest) (.multi k acc) res
      = getInfoLoop rest .normal (insertInfo res k (goTrim acc)) by
      simp only [getInfoLoop]
      rw [show goTrim "." = "." from rfl, if_pos rfl]]
  | cons l t ih =>
    obtain ⟨hl, hne, hnd⟩ := h l (List.mem_cons_self _ _)
    have ht : ∀ l ∈ t, goTrim l = l ∧ l ≠ "" ∧ l ≠ "." := fun x hx => h x (List.mem_cons_of_mem _ hx)
    simp only [List.map_cons, List.cons_append]
    rw [show getInfoLoop (some l :: (t.map some ++ (some "." :: rest))) (.multi k acc) res
      = getInfoLoop (t.map some ++ (some "." :: rest)) (.multi k (acc ++ l ++ "\n")) res by
      simp only [getInfoLoop, hl]
      rw [if_neg hnd]]
    rw [ih _ ht]
    rfl

theorem flatNl_head_fix {l : String} (ls : List String)
    (hfr : dropSp l.data = l.data) (hne : l.data ≠ []) :
    dropSp (flatNl (l :: ls)) = flatNl (l :: ls) := by
  rw [flatNl]
  cases hd : l.data with
  | nil => exact absurd hd hne
  | cons c t =>
    rw [hd] at hfr
    simpa using dropSp_cons_of_not (head_not_sp hfr) _

theorem joinNl_data_ne (l : String) (ls : List String) (hne : l.data ≠ []) :
    (joinNl (l :: ls)).data ≠ [] := by
  cases ls with
  | nil => simpa [joinNl]
  | cons l' t =>
    rw [joinNl_cons2]
    simp only [String.data_append]
    intro hc
    exact hne (List.append_eq_nil.mp (List.append_eq_nil.mp hc).1).1

theorem flatNl_back_trim (lines : List String)
    (h : ∀ l ∈ lines, dropSp l.data = l.data ∧ dropSp l.data.reverse = l.data.reverse ∧ l.data ≠ []) :
    lines ≠ [] → dropSp (flatNl lines).reverse = (joinNl lines).data.reverse := by
  induction lines with
  | nil => intro hc; exact absurd rfl hc
  | cons l t ih =>
    intro _
    obtain ⟨hfr, hbk, hne⟩ := h l (List.mem_cons_self _ _)
    have ht : ∀ x ∈ t, dropSp x.data = x.data ∧ dropSp x.data.reverse = x.data.reverse
        ∧ x.data ≠ [] := fun x hx => h x (List.mem_cons_of_mem _ hx)
    cases t with
    | nil =>
      rw [show flatNl [l] = l.data ++ ['\n'] from rfl, List.reverse_append,
        show ((['\n'] : List Char).reverse = ['\n']) from rfl,
        show ((['\n'] : List Char) ++ l.data.reverse) = '\n' :: l.data.reverse from rfl,
        show joinNl [l] = l from rfl]
      rw [show dropSp ('\n' :: l.data.reverse) = dropSp l.data.reverse by
        simp [dropSp, List.dropWhile_cons, goIsSpace]]
      exact hbk
    | cons l' t' =>
      have ihr := ih ht (by simp)
      rw [show flatNl (l :: l' :: t') = l.data ++ '\n' :: flatNl (l' :: t') from rfl,
        List.reverse_append, List.reverse_cons,
        List.append_assoc,
        show ((['\n'] : List Char) ++ l.data.reverse) = '\n' :: l.data.reverse from rfl]
      rw [show dropSp ((flatNl (l' :: t')).reverse ++ ('\n' :: l.data.reverse))
          = dropSp (flatNl (l' :: t')).reverse ++ ('\n' :: l.data.reverse) from ?_]
      · rw [ihr, joinNl_cons2]
        simp [String.data_append]
      · rw [dropSp, List.dropWhile_append]
        have hme : ((flatNl (l' :: t')).reverse.dropWhile goIsSpace).isEmpty = false := by
          rw [show (flatNl (l' :: t')).reverse.dropWhile goIsSpace
            = dropSp (flatNl (l' :: t')).reverse from rfl, ihr]
          have := joinNl_data_ne l' t' (ht l' (List.mem_cons_self _ _)).2.2
          simpa [List.isEmpty_iff] using this
        rw [hme]
        rfl

theorem trimChars_flatNl (lines : List String)
    (h : ∀ l ∈ lines, dropSp l.data = l.data ∧ dropSp l.data.reverse = l.data.reverse ∧ l.data ≠ []) :
    trimChars (flatNl lines) = (joinNl lines).data := by
  cases lines with
  | nil => rfl
  | cons l t =>
    have hfr := flatNl_head_fix t (h l (List.mem_cons_self _ _)).1 (h l (List.mem_cons_self _ _)).2.2
    have hbk := flatNl_back_trim (l :: t) h (by simp)
    rw [trimChars, hfr, show (flatNl (l :: t)).reverse.dropWhile goIsSpace
        = dropSp (flatNl (l :: t)).reverse from rfl, hbk, List.reverse_reverse]

/-- The trimmed accumulated value of a well-formed multi-line item is its
lines joined with newlines. -/
theorem goTrim_buildVal (lines : List String)
    (h : ∀ l ∈ lines, goTrim l = l ∧ l ≠ "" ∧ l ≠ ".") :
    goTrim (buildVal "" lines) = joinNl lines := by
  have h' : ∀ l ∈ lines, dropSp l.data = l.data ∧ dropSp l.data.reverse = l.data.reverse
      ∧ l.data ≠ [] := by
    intro l hl
    obtain ⟨h1, h2, _⟩ := h l hl
    have hfix := fixes_of_trimChars_fix ((goTrim_fix_iff l).mp h1)
    refine ⟨hfix.1, hfix.2, ?_⟩
    intro hc
    exact h2 (by cases l with | mk d => cases hc; rfl)
  rw [goTrim, buildVal_data]
  rw [show ("" : String).data ++ flatNl lines = flatNl lines by simp]
  rw [trimChars_flatNl lines h']

/-- The reply loop maps a rendered well-formed reply per the grammar: each
item contributes exactly its pair, and "250 OK" stops consumption with the
trailing input untouched. -/
theorem getInfoLoop_render (items : List ReplyItem) (extra : List (Option String))
    (res : List (String × String)) (h : ∀ it ∈ items, wfItemB it = true) :
    getInfoLoop (renderReply items extra) .normal res
      = some (items.foldl (fun acc it => insertInfo acc (itemPair it).1 (itemPair it).2) res,
          extra) := by
  induction items generalizing res with
  | nil =>
    simp only [renderReply, List.map_nil, List.flatten_nil, List.nil_append, List.foldl_nil]
    simp only [getInfoLoop]
    rw [show goTrim "250 OK" = "250 OK" from rfl,
      show goHasPfx "250 OK" "250 OK" = true from rfl]
    rfl
  | cons it t ih =>
    have hit := h it (List.mem_cons_self _ _)
    have ht : ∀ x ∈ t, wfItemB x = true := fun x hx => h x (List.mem_cons_of_mem _ hx)
    cases it with
    | kv k v =>
      have hk : k.data.contains '=' = false := by
        have := hit
        simp only [wfItemB, Bool.and_eq_true, Bool.not_eq_true'] at this
        exact this.1
      have hv : noTrailSp v = true := by
        have := hit
        simp only [wfItemB, Bool.and_eq_true] at this
        exact this.2
      have harr : renderReply (.kv k v :: t) extra
          = some ("250-" ++ k ++ "=" ++ v) :: renderReply t extra := by
        simp [renderReply, renderItem]
      rw [harr, getInfoLoop_kv k v _ res hk hv, List.foldl_cons]
      exact ih _ ht
    | ml k lines =>
      have hlines : ∀ l ∈ lines, goTrim l = l ∧ l ≠ "" ∧ l ≠ "." := by
        intro l hl
        have := hit
        simp only [wfItemB, List.all_eq_true] at this
        have hx := this l hl
        simp only [Bool.and_eq_true, beq_iff_eq, bne_iff_ne, ne_eq] at hx
        exact ⟨hx.1.1, hx.1.2, hx.2⟩
      have harr : renderReply (.ml k lines :: t) extra
          = some ("250+" ++ k ++ "=") :: (lines.map some ++ (some "." :: renderReply t extra)) := by
        simp [renderReply, renderItem]
      rw [harr, getInfoLoop_mlKey k _ res, getInfoLoop_mlData lines k "" _ res hlines,
        goTrim_buildVal lines hlines, List.foldl_cons]
      exact ih _ ht

/-- C4: for every well-formed rendered reply, `GetInfo` maps it per the
grammar: each "250-key=value" line contributes exactly the pair (key,
value), each "250+key=" opener binds key to its data lines (up to the lone
".") joined with newlines, and "250 OK" terminates the reply leaving the
trailing input unconsumed. -/
theorem getInfo_parses_reply_grammar (items : List ReplyItem) (extra : List (Option String))
    (closeOk : Bool) (h : ∀ it ∈ items, wfItemB it = true) :
    getInfoLoop (renderReply items extra) .normal []
      = some (items.foldl (fun acc it => insertInfo acc (itemPair it).1 (itemPair it).2) [], extra)
    ∧ GetInfoM ⟨some ⟨true, renderReply items extra, closeOk⟩⟩
      = (.ok (items.foldl (fun acc it => insertInfo acc (itemPair it).1 (itemPair it).2) []),
         ⟨some ⟨true, renderReply items extra, closeOk⟩⟩) := by
  have hrender := getInfoLoop_render items extra [] h
  refine ⟨hrender, ?_⟩
  show (match getInfoLoop (renderReply items extra) .normal [] with
    | none =>
      if !closeOk then
        ((.error "failed to read getinfo response (close error)" :
            Except String (List (String × String))),
          (⟨some ⟨true, renderReply items extra, closeOk⟩⟩ : ClientState))
      else (.error "failed to read getinfo response", ⟨none⟩)
    | some (result, _) =>
      (.ok result, ⟨some ⟨true, renderReply items extra, closeOk⟩⟩)) = _
  rw [hrender]

/-- C4 witness: a concrete reply with a single-line pair and a multi-line
value parses to exactly those bindings, leaving trailing input unread. -/
theorem getInfo_parses_reply_grammar_witness :
    GetInfoM ⟨some ⟨true,
        renderReply [.kv "version" "0.4.8.12", .ml "orconn-status" ["a 1", "b 2"]] [some "extra"],
        true⟩⟩
      = (.ok [("version", "0.4.8.12"), ("orconn-status", "a 1\nb 2")],
         ⟨some ⟨true,
           renderReply [.kv "version" "0.4.8.12", .ml "orconn-status" ["a 1", "b 2"]]
             [some "extra"], true⟩⟩) := by
  rw [(getInfo_parses_reply_grammar
    [.kv "version" "0.4.8.12", .ml "orconn-status" ["a 1", "b 2"]] [some "extra"] true
    (by decide)).2]
  rfl


/-! ### Claim about connection discard on I/O error -/

/-- C8: on an I/O error whose follow-up `Close` also errors, `GetInfo` and
`Signal` return their error with the dead connection handle still installed
(the early `return` skips `c.conn = nil`); only when `Close` succeeds is the
handle discarded. -/
theorem ioError_can_leave_conn_installed :
    (GetInfoM ⟨some ⟨false, [], false⟩⟩).2.conn = some ⟨false, [], false⟩
    ∧ (∃ e, (GetInfoM ⟨some ⟨false, [], false⟩⟩).1 = .error e)
    ∧ (GetInfoM ⟨some ⟨true, [none], false⟩⟩).2.conn = some ⟨true, [none], false⟩
    ∧ (∃ e, (GetInfoM ⟨some ⟨true, [none], false⟩⟩).1 = .error e)
    ∧ (SignalM ⟨some ⟨false, [], false⟩⟩).2.conn = some ⟨false, [], false⟩
    ∧ (∃ e, (SignalM ⟨some ⟨false, [], false⟩⟩).1 = .error e)
    ∧ (GetInfoM ⟨some ⟨false, [], true⟩⟩).2.conn = none
    ∧ (GetInfoM ⟨some ⟨true, [none], true⟩⟩).2.conn = none := by
  exact ⟨rfl, ⟨_, rfl⟩, rfl, ⟨_, rfl⟩, rfl, ⟨_, rfl⟩, rfl, rfl⟩

/-! ### Claims about the egress verifier -/

/-- C7: dialect interpretation of probe bodies: the dialect-A JSON flag/IP
body verifies with its IP, a dialect-B body containing "yes"
case-insensitively verifies with no IP, the dialect-C body verifies by
scanning the org field case-insensitively for "tor" and yields its IP, and
any endpoint matching no known dialect yields (false, "") for every body. -/
theorem parseResponse_dialects :
    parseResponse "https://check.torproject.org/api/ip"
        "\x7b\"IsTor\":true,\"IP\":\"1.2.3.4\"\x7d" = (true, "1.2.3.4")
    ∧ parseResponse "https://check.dan.me.uk" "Yes" = (true, "")
    ∧ parseResponse "https://ipinfo.io/json"
        "\x7b\"ip\":\"5.6.7.8\",\"org\":\"AS1 TOR Network\"\x7d" = (true, "5.6.7.8")
    ∧ (∀ endpoint body, goContains endpoint "check.torproject.org" = false →
        goContains endpoint "check.dan.me.uk" = false →
        goContains endpoint "ipinfo.io" = false →
        parseResponse endpoint body = (false, "")) := by
  refine ⟨by decide, by decide, by decide, ?_⟩
  intro ep body h1 h2 h3
  simp [parseResponse, h1, h2, h3]

/-- C7 witness: an endpoint of no known dialect is not verified. -/
theorem parseResponse_dialects_witness :
    parseResponse "https://example.com/ip" "Yes" = (false, "") :=
  parseResponse_dialects.2.2.2 "https://example.com/ip" "Yes" (by decide) (by decide) (by decide)

/-- A fully failing endpoint exhausts its three attempts. -/
theorem checkEndpointGo_all_fail (oracle : String → Nat → ProbeOutcome) (e : String)
    (h : ∀ i, (checkEndpointOnce oracle e i).success = false) :
    checkEndpointGo oracle e = (⟨false, false, "", e, "failed after 2 retries"⟩, 3) := by
  simp [checkEndpointGo, maxRetries, checkEndpointLoop, h 0, h 1, h 2]

/-- A first-attempt success is returned with a single attempt made. -/
theorem checkEndpointGo_first_success (oracle : String → Nat → ProbeOutcome) (e : String)
    (h : (checkEndpointOnce oracle e 0).success = true) :
    checkEndpointGo oracle e = (checkEndpointOnce oracle e 0, 1) := by
  simp [checkEndpointGo, maxRetries, checkEndpointLoop, h]

/-- C6: a failing endpoint is attempted exactly 3 times (2 retries) before
the verifier moves on; the first succeeding endpoint short-circuits the
loop and its result is returned; exhausting every endpoint yields the
aggregate failure value (a value, never an exception by construction) — in
particular [A always failing, B succeeding] returns B's first-attempt
result after exactly 3 attempts at A and 1 at B. -/
theorem check_retries_and_short_circuits (oracle : String → Nat → ProbeOutcome) (A B : String) :
    (∀ endpoints, (∀ e ∈ endpoints, ∀ i, (checkEndpointOnce oracle e i).success = false) →
      performCheckGo oracle endpoints
        = (⟨false, false, "", "", "all endpoints failed"⟩, endpoints.map (fun e => (e, 3))))
    ∧ ((∀ i, (checkEndpointOnce oracle A i).success = false) →
       (checkEndpointOnce oracle B 0).success = true →
       performCheckGo oracle [A, B] = (checkEndpointOnce oracle B 0, [(A, 3), (B, 1)])) := by
  constructor
  · intro endpoints hall
    induction endpoints with
    | nil => rfl
    | cons e t ih =>
      have he := hall e (List.mem_cons_self _ _)
      have ht := fun x hx => hall x (List.mem_cons_of_mem _ hx)
      simp [performCheckGo, checkEndpointGo_all_fail oracle e he, ih ht]
  · intro hA hB
    simp [performCheckGo, checkEndpointGo_all_fail oracle A hA,
      checkEndpointGo_first_success oracle B hB, hB]

/-- C6 witness: with A always refusing and B answering, the check returns
B's result after 3 attempts at A, and with every endpoint refusing it
returns the aggregate failure. -/
theorem check_retries_and_short_circuits_witness :
    performCheckGo (fun e _ => if e = "B" then .response 200 (.ok "Yes")
        else .transportError "refused") ["A", "B"]
      = (⟨true, false, "", "B", ""⟩, [("A", 3), ("B", 1)])
    ∧ performCheckGo (fun _ _ => .transportError "refused") ["A", "B"]
      = (⟨false, false, "", "", "all endpoints failed"⟩, [("A", 3), ("B", 3)]) := by
  constructor
  · have h := (check_retries_and_short_circuits
      (fun e _ => if e = "B" then .response 200 (.ok "Yes") else .transportError "refused")
      "A" "B").2 (fun i => rfl) rfl
    rw [h]; rfl
  · have h := (check_retries_and_short_circuits
      (fun _ _ => .transportError "refused") "A" "B").1 ["A", "B"] (fun e he i => by
        cases he with
        | head => rfl
        | tail _ h2 => cases h2 with
          | head => rfl
          | tail _ h3 => cases h3
      )
    rw [h]; rfl

/-- C2 counterexample: with the first endpoint reachable but reporting
not-anonymized (IsTor false) and a second endpoint that would verify, the
check returns the first endpoint's result (success, not verified) as the
overall outcome after a single attempt, and never touches the second
endpoint — contrary to recording it as failed and advancing. -/
theorem reachableNotTor_not_advanced :
    CheckGo
      (fun ep _ => if ep = "https://check.torproject.org/api/ip" then
          .response 200 (.ok "\x7b\"IsTor\":false,\"IP\":\"1.2.3.4\"\x7d")
        else .response 200 (.ok "\x7b\"ip\":\"5.6.7.8\",\"org\":\"AS1 TOR Network\"\x7d"))
      ["https://check.torproject.org/api/ip", "https://ipinfo.io/json"]
      = ⟨true, false, "1.2.3.4", "https://check.torproject.org/api/ip", ""⟩
    ∧ (performCheckGo
      (fun ep _ => if ep = "https://check.torproject.org/api/ip" then
          .response 200 (.ok "\x7b\"IsTor\":false,\"IP\":\"1.2.3.4\"\x7d")
        else .response 200 (.ok "\x7b\"ip\":\"5.6.7.8\",\"org\":\"AS1 TOR Network\"\x7d"))
      ["https://check.torproject.org/api/ip", "https://ipinfo.io/json"]).2
      = [("https://check.torproject.org/api/ip", 1)] := by
  exact ⟨by decide, by decide⟩

/-- C2 (amended): a probe that succeeds at the HTTP level but whose dialect
interpretation reports not-anonymized is returned immediately as the
overall check outcome (success with verified=false), with no further
retries of that endpoint and no advancement to later endpoints. -/
theorem successNotVerified_is_final (oracle : String → Nat → ProbeOutcome) (ep : String)
    (rest : List String) (b : String)
    (h1 : oracle ep 0 = .response 200 (.ok b))
    (h2 : (parseResponse ep b).1 = false) :
    performCheckGo oracle (ep :: rest)
      = (⟨true, false, (parseResponse ep b).2, ep, ""⟩, [(ep, 1)]) := by
  have honce : checkEndpointOnce oracle ep 0 = ⟨true, false, (parseResponse ep b).2, ep, ""⟩ := by
    simp only [checkEndpointOnce, h1]
    rw [if_neg (by simp)]
    rw [show (⟨true, (parseResponse ep b).1, (parseResponse ep b).2, ep, ""⟩ :
      ExternalCheckResult) = ⟨true, false, (parseResponse ep b).2, ep, ""⟩ by rw [h2]]
  have hsucc : (checkEndpointOnce oracle ep 0).success = true := by rw [honce]
  simp [performCheckGo, checkEndpointGo_first_success oracle ep hsucc, honce]

/-- C2 witness for the amended claim: a dan.me.uk endpoint answering "No"
yields (success, not verified) as the final outcome after one attempt. -/
theorem successNotVerified_is_final_witness :
    performCheckGo (fun _ _ => .response 200 (.ok "No")) ["https://check.dan.me.uk", "x"]
      = (⟨true, false, "", "https://check.dan.me.uk", ""⟩, [("https://check.dan.me.uk", 1)]) := by
  have h := successNotVerified_is_final (fun _ _ => .response 200 (.ok "No"))
    "https://check.dan.me.uk" ["x"] "No" rfl (by decide)
  rw [h]
  rfl

/-! ### Claims about the readiness evaluator and notifier -/

/-- C1: every check classified unhealthy emits exactly one event — the
edge-triggered health-changed when the stored class differs, the
steady-state bootstrap-failed otherwise, never both; a check classified
healthy with the stored class already healthy emits nothing; and the first
observation never emits a health-changed transition event. -/
theorem health_one_event_per_unhealthy_check (prev : Option Bool) (q : Except String Status) :
    (((∃ e, q = .error e) ∨ (∃ s, q = .ok s ∧ s.bootstrapPhase < 100)) →
      ((healthGo prev q).2.2.map Emit.event
        = [if prev = some true then "health_changed" else "bootstrap_failed"]))
    ∧ (∀ s, q = .ok s → 100 ≤ s.bootstrapPhase → prev = some true →
        (healthGo prev q).2.2 = [])
    ∧ (prev = none → ((healthGo prev q).2.2.map Emit.event).count "health_changed" = 0) := by
  refine ⟨?_, ?_, ?_⟩
  · rintro (⟨e, rfl⟩ | ⟨s, rfl, hlt⟩)
    · cases prev with
      | none => simp [healthGo, checkHealthStateChangeGo]
      | some p => cases p <;> simp [healthGo, checkHealthStateChangeGo]
    · cases prev with
      | none => simp [healthGo, checkHealthStateChangeGo, hlt]
      | some p => cases p <;> simp [healthGo, checkHealthStateChangeGo, hlt]
  · rintro s rfl h100 rfl
    simp [healthGo, checkHealthStateChangeGo, show ¬(s.bootstrapPhase < 100) from by omega]
  · rintro rfl
    cases q with
    | error e => simp [healthGo, checkHealthStateChangeGo]
    | ok s =>
      by_cases hlt : s.bootstrapPhase < 100 <;>
        simp [healthGo, checkHealthStateChangeGo, hlt]

/-- C1 witness: a steadily-unhealthy check emits exactly the
bootstrap-failed event; a steadily-healthy check emits nothing. -/
theorem health_one_event_per_unhealthy_check_witness :
    (healthGo (some false) (.ok { bootstrapPhase := 50 })).2.2.map Emit.event
      = ["bootstrap_failed"]
    ∧ (healthGo (some true) (.ok { bootstrapPhase := 100 })).2.2 = [] := by
  constructor
  · have h := (health_one_event_per_unhealthy_check (some false)
      (.ok { bootstrapPhase := 50 })).1 (Or.inr ⟨{ bootstrapPhase := 50 }, rfl, by decide⟩)
    simpa using h
  · exact (health_one_event_per_unhealthy_check (some true)
      (.ok { bootstrapPhase := 100 })).2.1 _ rfl (by decide) rfl

/-- C9: after a successful renew signal, a failing status re-fetch skips the
circuit-renewed notification entirely while the handler still answers
success; a successful re-fetch makes exactly one circuit-renewed
notification attempt, its circuit count and health flag taken from the
fetched status. -/
theorem renew_notification_rule :
    (∀ e, renewGo "POST" (.ok ()) (.error e) = (200, []))
    ∧ (∀ s, renewGo "POST" (.ok ()) (.ok s)
        = (200, [⟨"circuit_renewed", "Tor circuit renewal requested",
            { circuits := s.numCircuits, healthy := s.circuitEstablished }⟩])) := by
  constructor
  · intro e
    simp [renewGo]
  · intro s
    simp [renewGo]

/-- C10: a notification delivery is attempted iff a webhook target is
configured and the event kind is in the configured allow-list; and `Send`
with an empty target URL returns success without issuing any HTTP
request. -/
theorem webhook_gating_rule :
    (∀ (cfg : Bool) (events : List String) (event : String),
      sendWebhookGo cfg events event = true ↔ (cfg = true ∧ events.contains event = true))
    ∧ (∀ fmtR mkReq doResp, webhookSendGo "" fmtR mkReq doResp = (.ok (), false)) := by
  constructor
  · intro cfg events event
    cases cfg <;> cases h : events.contains event <;> simp_all [sendWebhookGo]
  · intro fmtR mkReq doResp
    rfl

end Torarr
